import Mathlib

/-!
Shallow embedding of the cpufetch topology / cache / frequency / peak-performance
core (sparc, parisc and alpha backends plus the common string accessors), together
with proofs about the embedded definitions.

External collaborator calls (sysfs / /proc reads, `sysconf`, `getenv`, libc
numeric parsing) are represented by explicit input parameters: an `Option`
value is `none` exactly when the corresponding C call reports failure
(missing file / field, or `errno != 0` after `strtol`-family parsing).
All integer arithmetic of the C code is carried out on unbounded `Int`/`Nat`
with explicit two's-complement wrapping where the C type is fixed-width.
-/

namespace Cpufetch

/-- Modelled from the spec: `UNKNOWN_DATA` is defined in `src/common/global.h`,
which is not part of this tree; the spec fixes the UNKNOWN sentinel to −1. -/
def UNKNOWN_DATA : Int := -1

/-- Modelled from the spec: `STRING_UNKNOWN` is defined in `src/common/global.h`,
which is not part of this tree; the spec fixes the user-visible failure token
to the explicit string "Unknown". -/
def STRING_UNKNOWN : List Char := "Unknown".toList

/-! ## Topology reconstruction (src/sparc/sparc.c, src/parisc/parisc.c)

Both backends share the identical `fill_array_from_sys` /
`fill_package_ids_from_sys` code in their respective `udev.c`, and the
identical package-id histogram and unique-(package,core)-pair scan in
`get_topology_info`; those shared pieces are embedded once. -/

/-- Validation loop of `fill_package_ids_from_sys` (sparc/udev.c:46-63,
parisc/udev.c:48-65): after a successful raw read, every id must be
different from −1 and inside `[0, total_cores)`; otherwise the whole
read is reported as failed.  The `-1` test of the C code is subsumed by
the `0 ≤ p` test. -/
def validatePackageIds (ids : List Int) (total : Nat) : Bool :=
  ids.all (fun p => decide (0 ≤ p) && decide (p < (total : Int)))

/-- Embedding of `fill_package_ids_from_sys`: `raw` is the result of the
underlying `fill_array_from_sys` loop (`none` when some per-CPU file read
or `strtol` failed); a successful raw read is then validated. -/
def fill_package_ids_from_sys (raw : Option (List Int)) (total : Nat) :
    Option (List Int) :=
  match raw with
  | none => none
  | some ids => if validatePackageIds ids total then some ids else none

/-- Histogram increment `package_ids_count[package_ids[i]]++`
(sparc.c:112-114, parisc.c:100). The C array of `total_cores` counters is
modelled as a function from the id value to its counter. -/
def histInc (h : Int → Nat) (k : Int) : Int → Nat :=
  fun j => if j = k then h k + 1 else h j

/-- Histogram of package ids built by the counting loop of
`get_topology_info` (sparc.c:109-114, parisc.c:99-100). -/
def buildHist (ids : List Int) : Int → Nat :=
  ids.foldl histInc (fun _ => 0)

/-- Socket count loop of `get_topology_info` (sparc.c:115-119,
parisc.c:101): the number of indices `i < total_cores` whose histogram
entry is non-zero. -/
def socketsFromHist (ids : List Int) (total : Nat) : Nat :=
  (List.range total).countP (fun i : Nat => decide (buildHist ids (i : Int) ≠ 0))

/-- Key packing of the unique-pair scan (sparc.c:132, parisc.c:111):
`(((long long)package_id) << 32) | (unsigned long long)(uint32_t)core_id`.
The low 32 bits of the shifted package id are zero, so the bitwise-or is
addition; the `uint32_t` cast is reduction mod 2^32. -/
def packKey (pkg core : Int) : Int :=
  pkg * 2 ^ 32 + core.emod (2 ^ 32)

/-- One step of the linear `seen_pairs` scan (sparc.c:133-139,
parisc.c:112-118): a key is appended only when not already present. -/
def addKey (seen : List Int) (k : Int) : List Int :=
  if k ∈ seen then seen else seen ++ [k]

/-- Unique-pair counter of `get_topology_info` (sparc.c:124-140,
parisc.c:105-119): the number of distinct packed keys over all indices. -/
def uniquePairCount (pkgs cores : List Int) : Nat :=
  (((pkgs.zip cores).map (fun pc => packKey pc.1 pc.2)).foldl addKey []).length

/-- Result record of topology reconstruction (`struct topology` fields used
by the sparc/parisc/alpha backends).  All values produced by those backends
are non-negative, so the fields are carried as `Nat`. -/
structure Topology where
  total_cores : Nat
  sockets : Nat
  physical_cores : Nat
  logical_cores : Nat
  smt_supported : Nat
  deriving Repr, DecidableEq

/-- Core-id array after the fallback of sparc.c:96-100 / parisc.c:84-87:
on read failure every entry is its own index. -/
def coreIdsAfterFallback (total : Nat) (coreRead : Option (List Int)) :
    List Int :=
  match coreRead with
  | some ids => ids
  | none => (List.range total).map (fun i : Nat => (i : Int))

namespace sparc

/-- Embedding of sparc `get_topology_info` (sparc.c:84-152).
`total` is `total_cores` after the `sysconf` −1 guard of lines 88-91;
`coreRead` and `pkgRaw` are the collaborator results feeding
`fill_core_ids_from_sys` / `fill_package_ids_from_sys`.  On package-id
failure each CPU index becomes its own package id and `sockets` is set to
`total_cores` (lines 102-106); on success the histogram counts the sockets
(lines 107-121).  `smt_supported` is set to 1 unconditionally (line 145). -/
def get_topology_info (total : Nat) (coreRead pkgRaw : Option (List Int)) :
    Topology :=
  let core_ids := coreIdsAfterFallback total coreRead
  match fill_package_ids_from_sys pkgRaw total with
  | none =>
      let package_ids := (List.range total).map (fun i : Nat => (i : Int))
      let sockets := total
      let up := uniquePairCount package_ids core_ids
      { total_cores := total
        sockets := sockets
        physical_cores := if 0 < sockets then up / sockets else 0
        logical_cores := if 0 < sockets then total / sockets else 0
        smt_supported := 1 }
  | some ids =>
      let sockets := socketsFromHist ids total
      let up := uniquePairCount ids core_ids
      { total_cores := total
        sockets := sockets
        physical_cores := if 0 < sockets then up / sockets else 0
        logical_cores := if 0 < sockets then total / sockets else 0
        smt_supported := 1 }

end sparc

/-- Modelled from the spec: `get_num_sockets_package_cpus` lives in
`src/common/udev.c`, which is not part of this tree.  It derives the socket
count from the per-CPU `package_cpus` bitmaps, i.e. it counts distinct
bitmap values over the `total_cores` online CPUs; hence a successful result
is between 1 and `total_cores`, and on failure it is the UNKNOWN sentinel.
This predicate constrains the value a run of the helper can return. -/
def numSocketsPackageCpusSpec (total : Nat) (r : Int) : Prop :=
  r = UNKNOWN_DATA ∨ (1 ≤ r ∧ r ≤ (total : Int))

namespace parisc

/-- Embedding of parisc `get_topology_info` (parisc.c:70-134).
`total` is `total_cores` after the `sysconf` −1 guard (lines 75-78).
On package-id read failure the `package_ids` array is left unwritten, so
the later unique-pair scan reads indeterminate memory: that content is the
explicit parameter `staleMem`; the socket count then comes from
`get_num_sockets_package_cpus`, whose result is the parameter
`numSocketsPC`, clamped to 1 when UNKNOWN or non-positive (lines 89-96).
Lines 121-127 clamp `physical_cores`, `logical_cores` and `smt_supported`. -/
def get_topology_info (total : Nat) (coreRead pkgRaw : Option (List Int))
    (staleMem : List Int) (numSocketsPC : Int) : Topology :=
  let core_ids := coreIdsAfterFallback total coreRead
  let pr := fill_package_ids_from_sys pkgRaw total
  let package_ids := match pr with
    | none => staleMem
    | some ids => ids
  let sockets0 : Nat := match pr with
    | none =>
        if numSocketsPC = UNKNOWN_DATA ∨ numSocketsPC ≤ 0 then 1
        else numSocketsPC.toNat
    | some ids => socketsFromHist ids total
  let up := uniquePairCount package_ids core_ids
  let sockets := if sockets0 = 0 then 1 else sockets0
  let physical0 := if 0 < up then up / sockets
    else (if 0 < total then total / sockets else 1)
  let physical := if physical0 = 0 then 1 else physical0
  let logical0 := if 0 < total then total / sockets else physical
  let logical := if logical0 = 0 then physical else logical0
  let smt0 := logical / physical
  let smt := if smt0 = 0 then 1 else smt0
  { total_cores := total
    sockets := sockets
    physical_cores := physical
    logical_cores := logical
    smt_supported := smt }

end parisc

namespace alpha

/-- Embedding of alpha `get_topology_info` (alpha.c:58-70): one socket,
every online CPU its own physical core, no SMT.  `online` is the raw
`sysconf(_SC_NPROCESSORS_ONLN)` result, guarded by `online <= 0 → 1`. -/
def get_topology_info (online : Int) : Topology :=
  let total : Nat := if online ≤ 0 then 1 else online.toNat
  { total_cores := total
    sockets := 1
    physical_cores := total
    logical_cores := total
    smt_supported := 1 }

end alpha

/-! ## Frequency parsers (src/alpha/udev.c, src/sparc/udev.c, src/parisc/udev.c)

Each parser's libc numeric-conversion call is represented by the already
converted value: `none` stands for "field absent or `errno != 0`".  The
validation and unit-conversion arithmetic after the conversion is embedded
exactly. -/

namespace alpha

/-- Numeric tail of `get_frequency_from_cpuinfo_alpha` (alpha/udev.c:22-29
and 33-40): given a parsed Hz value, reject zero, convert to MHz by
truncating division, and accept only the band `[50, 10000]` MHz. -/
def freqFromHz (hz : Nat) : Int :=
  if hz = 0 then UNKNOWN_DATA
  else
    let mhz : Int := (hz / 1000000 : Nat)
    if mhz < 50 ∨ mhz > 10000 then UNKNOWN_DATA else mhz

/-- Embedding of `get_frequency_from_cpuinfo_alpha` (alpha/udev.c:11-41).
`attempt1` is the `strtoull` result of the tab-separated field lookup,
`attempt2` the result of the whitespace-tolerant fallback lookup; either is
`none` when the field is absent or `errno` was set. -/
def get_frequency_from_cpuinfo_alpha (attempt1 attempt2 : Option Nat) : Int :=
  match attempt1 with
  | some hz => freqFromHz hz
  | none =>
      match attempt2 with
      | none => UNKNOWN_DATA
      | some hz => freqFromHz hz

end alpha

namespace sparc

/-- Embedding of sparc `get_frequency_from_cpuinfo` (sparc/udev.c:65-86):
`hzRead` is the `strtoull(.., 16)` result of the `Cpu0ClkTck` field
(`none` when the field is absent or `errno` was set); zero Hz is rejected,
the Hz value is converted to MHz by truncating division, and only the band
`[100, 10000]` MHz is accepted. -/
def get_frequency_from_cpuinfo (hzRead : Option Nat) : Int :=
  match hzRead with
  | none => UNKNOWN_DATA
  | some hz =>
      if hz = 0 then UNKNOWN_DATA
      else
        let mhz : Int := (hz / 1000000 : Nat)
        if mhz > 10000 ∨ mhz < 100 then UNKNOWN_DATA else mhz

end sparc

namespace parisc

/-- Embedding of parisc `get_frequency_from_cpuinfo` (parisc/udev.c:68-87):
`mhzRead` is the `strtod` result of the `cpu MHz` field, carried as an
exact rational (`none` when the field is absent or `errno` was set);
non-positive values are rejected, the value is rounded to the nearest
integer MHz by `(long)(mhz_d + 0.5)`, and only the band `[100, 10000]` MHz
is accepted. -/
def get_frequency_from_cpuinfo (mhzRead : Option ℚ) : Int :=
  match mhzRead with
  | none => UNKNOWN_DATA
  | some q =>
      if q ≤ 0 then UNKNOWN_DATA
      else
        let mhz : Int := ⌊q + 1 / 2⌋
        if mhz > 10000 ∨ mhz < 100 then UNKNOWN_DATA else mhz

end parisc

/-! ## Cache hierarchy builders (src/sparc/sparc.c, src/parisc/parisc.c,
src/alpha/alpha.c) -/

/-- One cache level of `struct cache` (`struct cach`): existence flag,
size in bytes, and instance count. -/
structure Cach where
  lexists : Bool
  size : Int
  num_caches : Nat
  deriving Repr, DecidableEq

/-- The four-level cache record of `struct cache`. -/
structure Cache where
  L1i : Cach
  L1d : Cach
  L2 : Cach
  L3 : Cach
  max_cache_level : Nat
  deriving Repr, DecidableEq

namespace sparc

/-- Instance-count default of sparc `get_cache_info` for the private levels
L1i/L1d/L2 (sparc.c:56-57, 62-63, 69-70): the online CPU count when it is
in `(0, 256)`, otherwise 1. -/
def numCachesPrivate (online : Int) : Nat :=
  if 0 < online ∧ online < 256 then online.toNat else 1

/-- Embedding of sparc `get_cache_info` (sparc.c:44-82).  The four size
parameters are the results of the `get_*_cache_size_sparc` collaborator
helpers; `online` is the `sysconf(_SC_NPROCESSORS_ONLN)` result used for
the instance-count heuristics.  A level is marked existing exactly when
its size is strictly positive; `max_cache_level` is overwritten by each
existing level in L1i→L3 order.  Fields of non-existing levels keep the
`init_cache_struct` state (`exists=false`) with their assigned size. -/
def get_cache_info (l1i l1d l2 l3 online : Int) : Cache :=
  let c0 : Cache :=
    { L1i := ⟨false, l1i, 1⟩, L1d := ⟨false, l1d, 1⟩
      L2 := ⟨false, l2, 1⟩, L3 := ⟨false, l3, 1⟩, max_cache_level := 0 }
  let c1 := if 0 < l1i then
      { c0 with L1i := ⟨true, l1i, numCachesPrivate online⟩, max_cache_level := 1 }
    else c0
  let c2 := if 0 < l1d then
      { c1 with L1d := ⟨true, l1d, numCachesPrivate online⟩, max_cache_level := 2 }
    else c1
  let c3 := if 0 < l2 then
      { c2 with L2 := ⟨true, l2, numCachesPrivate online⟩, max_cache_level := 3 }
    else c2
  if 0 < l3 then
    { c3 with
      L3 := ⟨true, l3, if 1 < online ∧ online < 256 then 2 else 1⟩
      max_cache_level := 4 }
  else c3

end sparc

namespace parisc

/-- Embedding of parisc `get_cache_info` (parisc.c:36-68).  The four size
parameters are the results of the `get_*_cache_size_parisc` collaborator
helpers, and `nc` gives the result of the `get_num_caches_by_level`
collaborator for each level index 0-3.  A level is marked existing exactly
when its size is strictly positive. -/
def get_cache_info (l1i l1d l2 l3 : Int) (nc : Nat → Nat) : Cache :=
  let c0 : Cache :=
    { L1i := ⟨false, l1i, 1⟩, L1d := ⟨false, l1d, 1⟩
      L2 := ⟨false, l2, 1⟩, L3 := ⟨false, l3, 1⟩, max_cache_level := 0 }
  let c1 := if 0 < l1i then
      { c0 with L1i := ⟨true, l1i, nc 0⟩, max_cache_level := 1 }
    else c0
  let c2 := if 0 < l1d then
      { c1 with L1d := ⟨true, l1d, nc 1⟩, max_cache_level := 2 }
    else c1
  let c3 := if 0 < l2 then
      { c2 with L2 := ⟨true, l2, nc 2⟩, max_cache_level := 3 }
    else c2
  if 0 < l3 then
    { c3 with L3 := ⟨true, l3, nc 3⟩, max_cache_level := 4 }
  else c3

end parisc

namespace alpha

/-- Embedding of alpha `get_cache_info` (alpha.c:44-56): no sizes are read;
`max_cache_level` is fixed to 2 and the loop over `cach_arr[0..2]`
(that is L1i, L1d and L2) marks each of those levels as existing with one
instance and size 0.  L3 keeps the `init_cache_struct` state
(`exists=false`); its size field is never written, which is modelled by
the parameter `l3Stale`. -/
def get_cache_info (l3Stale : Int) : Cache :=
  { L1i := ⟨true, 0, 1⟩
    L1d := ⟨true, 0, 1⟩
    L2 := ⟨true, 0, 1⟩
    L3 := ⟨false, l3Stale, 1⟩
    max_cache_level := 2 }

end alpha

/-! ## Peak-performance estimation (src/alpha/alpha.c, src/parisc/parisc.c,
src/sparc/sparc.c)

The C arithmetic mixes `int` (32-bit) and `int64_t` (64-bit) operations;
the fixed-width products are modelled with explicit two's-complement
wrapping (the usual implementation behaviour of the undefined signed
overflow). -/

/-- Two's-complement wrap of a 32-bit signed `int` product. -/
def wrap32 (x : Int) : Int := (x + 2 ^ 31) % 2 ^ 32 - 2 ^ 31

/-- Two's-complement wrap of a 64-bit signed `int64_t` product. -/
def wrap64 (x : Int) : Int := (x + 2 ^ 63) % 2 ^ 64 - 2 ^ 63

/-- Substring test on character lists, the shape of libc `strstr`:
some index of the haystack starts an occurrence of the needle. -/
def isSubstr (needle hay : List Char) : Bool :=
  (List.range (hay.length + 1)).any (fun i => needle.isPrefixOf (hay.drop i))

namespace alpha

/-- Embedding of alpha `get_peak_performance_estimate` (alpha.c:158-162):
UNKNOWN frequency yields −1, otherwise
`physical_cores * sockets * (freq * 1000000) * 1` where the first product
is 32-bit `int` arithmetic and the rest 64-bit. -/
def get_peak_performance_estimate (physical sockets : Nat) (freq : Int) :
    Int :=
  if freq = UNKNOWN_DATA then -1
  else wrap64 (wrap64 (wrap32 ((physical : Int) * (sockets : Int)) *
    wrap64 (freq * 1000000)) * 1)

end alpha

namespace parisc

/-- Embedding of `parisc_flops_per_cycle` (parisc.c:162-177): 1 when the
CPU name is absent; 2 when the name contains one of the PA-8xxx patterns;
otherwise 1.  The later `PA8700`/`PA8800`/`PA8900` tests of the C code are
retained even though each such name already contains `PA8` or `PA-8`. -/
def parisc_flops_per_cycle (name : Option (List Char)) : Int :=
  match name with
  | none => 1
  | some n =>
      if isSubstr "PA8".toList n ∨ isSubstr "PA-8".toList n ∨
         isSubstr "PA 8".toList n then 2
      else if isSubstr "PA8700".toList n ∨ isSubstr "PA-8700".toList n then 2
      else if isSubstr "PA8800".toList n ∨ isSubstr "PA-8800".toList n then 2
      else if isSubstr "PA8900".toList n ∨ isSubstr "PA-8900".toList n then 2
      else 1

/-- Embedding of parisc `get_peak_performance` (parisc.c:179-185):
UNKNOWN frequency yields −1, otherwise
`physical_cores * sockets * (freq * 1000000) * flops_per_cycle`, with the
`physical_cores * sockets` product in 32-bit `int` arithmetic and the rest
in 64-bit arithmetic. -/
def get_peak_performance (name : Option (List Char)) (physical sockets : Nat)
    (freq : Int) : Int :=
  if freq = UNKNOWN_DATA then -1
  else
    wrap64 (wrap64 (wrap32 ((physical : Int) * (sockets : Int)) *
      wrap64 (freq * 1000000)) * parisc_flops_per_cycle name)

end parisc

namespace sparc

/-- Embedding of sparc `get_peak_performance` (sparc.c:313-324):
`measured` is the `measure_peak_performance_f32` result (−1 whenever
measurement is disabled or failed); a positive measurement is preferred,
otherwise UNKNOWN frequency yields −1 and otherwise the static estimate
`physical_cores * sockets * (freq * 1000000)` is returned (one FLOP per
cycle per core). -/
def get_peak_performance (measured : Int) (physical sockets : Nat)
    (freq : Int) : Int :=
  if 0 < measured then measured
  else if freq = UNKNOWN_DATA then -1
  else wrap64 (wrap32 ((physical : Int) * (sockets : Int)) *
    wrap64 (freq * 1000000))

end sparc

/-! ## Runtime-measurement configuration (`measure_peak_performance_f32`
in src/sparc/sparc.c:205-219, src/alpha/alpha.c:85-98,
src/parisc/parisc.c:196-211)

The timed kernels themselves (floating-point busy loops against the wall
clock) are not embeddable; what is embedded is the decision logic that
precedes them: whether measurement runs at all, and the target duration it
runs for.  `accuratePP` is the `accurate_pp()` toggle, `envIsOne` the test
`env != NULL && env[0] == '1'` on `CPUFETCH_MEASURE_SP_FLOPS`, and
`durRead` the `atof` value of `CPUFETCH_MEASURE_SP_FLOPS_SECS` as an exact
rational (`none` when the variable is unset).  The result is `none` when
the kernel returns −1 immediately (no opt-in), otherwise the target
duration in seconds. -/

/-- Duration-override logic shared by the three backends: starting from
`defaultSecs`, a user-supplied duration replaces it exactly when the env
toggle is `'1'` and the value satisfies `0.05 < v && v < 30.0`. -/
def targetSeconds (defaultSecs : ℚ) (envIsOne : Bool) (durRead : Option ℚ) :
    ℚ :=
  if envIsOne then
    match durRead with
    | some v => if 0.05 < v ∧ v < 30 then v else defaultSecs
    | none => defaultSecs
  else defaultSecs

namespace sparc

/-- Measurement gating and duration selection of sparc
`measure_peak_performance_f32` (sparc.c:205-219): default duration 0.6 s. -/
def measureConfig (accuratePP envIsOne : Bool) (durRead : Option ℚ) :
    Option ℚ :=
  if ¬(accuratePP ∨ envIsOne) then none
  else some (targetSeconds 0.6 envIsOne durRead)

end sparc

namespace alpha

/-- Measurement gating and duration selection of alpha
`measure_peak_performance_f32` (alpha.c:85-98): default duration 2 s. -/
def measureConfig (accuratePP envIsOne : Bool) (durRead : Option ℚ) :
    Option ℚ :=
  if ¬(accuratePP ∨ envIsOne) then none
  else some (targetSeconds 2 envIsOne durRead)

end alpha

namespace parisc

/-- Measurement gating and duration selection of parisc
`measure_peak_performance_f32` (parisc.c:196-211): default duration 2 s. -/
def measureConfig (accuratePP envIsOne : Bool) (durRead : Option ℚ) :
    Option ℚ :=
  if ¬(accuratePP ∨ envIsOne) then none
  else some (targetSeconds 2 envIsOne durRead)

end parisc

/-! ## String accessors (src/common/cpu.c)

The accessors are modelled on `List Char`.  Decimal rendering of the
numeric payloads (`%d`, `%lld`, and the fixed-point `%.3f` / `%.2f`
conversions applied to exact quotients) is embedded with an exact decimal
digit renderer; the binary-float representation step of the C code is
abstracted away (it can perturb the last printed digit for very large
magnitudes but never the shape of the output).  `snprintf`'s size bound
(at most `size-1` characters are kept) is modelled by `List.take`. -/

/-- Decimal digit character for `n < 10`, as produced by printf. -/
def natDigitChar (n : Nat) : Char := Char.ofNat (48 + n)

/-- Decimal rendering of a natural number, most significant digit first. -/
def natToDigits (n : Nat) : List Char :=
  if _h : n < 10 then [natDigitChar n]
  else natToDigits (n / 10) ++ [natDigitChar (n % 10)]
decreasing_by exact Nat.div_lt_self (by omega) (by omega)

/-- Decimal rendering of a signed value, as produced by `%d` / `%lld`. -/
def intToDigits (x : Int) : List Char :=
  if x < 0 then '-' :: natToDigits x.natAbs else natToDigits x.toNat

/-- Zero-padded two-digit rendering for a fraction part `n < 100`. -/
def pad2 (n : Nat) : List Char :=
  if n < 10 then '0' :: natToDigits n else natToDigits n

/-- Zero-padded three-digit rendering for a fraction part `n < 1000`. -/
def pad3 (n : Nat) : List Char :=
  if n < 10 then '0' :: '0' :: natToDigits n
  else if n < 100 then '0' :: natToDigits n
  else natToDigits n

/-- Fixed-point `%.3f` rendering of `mhz / 1000` for a non-negative MHz
value, used by `get_str_freq`'s GHz branch; the quotient has exactly three
decimal places, so no rounding is involved. -/
def fmtFixed3 (mhz : Nat) : List Char :=
  natToDigits (mhz / 1000) ++ '.' :: pad3 (mhz % 1000)

/-- Fixed-point `%.2f` rendering of a non-negative rational, rounding to
the nearest hundredth as printf does (ties behaviour abstracted). -/
def fmtFixed2Nonneg (q : ℚ) : List Char :=
  let c : Nat := (⌊q * 100 + 1 / 2⌋).toNat
  natToDigits (c / 100) ++ '.' :: pad2 (c % 100)

/-- Fixed-point `%.2f` rendering of a rational of either sign. -/
def fmtFixed2 (q : ℚ) : List Char :=
  if q < 0 then '-' :: fmtFixed2Nonneg (-q) else fmtFixed2Nonneg q

/-- Embedding of `get_str_freq` (common/cpu.c:158-181).  The frequency is
`freq->max` with its `measured` flag; UNKNOWN or negative values render as
the "Unknown" token, values at or above 1000 MHz as `%.3f GHz`, others as
`%d MHz`, each prefixed by `~` when measured and truncated by the
`size = 11` snprintf bound. -/
def get_str_freq (measured : Bool) (max : Int) : List Char :=
  if max = UNKNOWN_DATA ∨ max < 0 then STRING_UNKNOWN
  else if 1000 ≤ max then
    ((if measured then ['~'] else []) ++ fmtFixed3 max.toNat ++
      " GHz".toList).take 10
  else
    ((if measured then ['~'] else []) ++ natToDigits max.toNat ++
      " MHz".toList).take 10

/-- SI constant of common/cpu.c:184. -/
def FLOPS_MEGA : Int := 1000000
/-- SI constant of common/cpu.c:185. -/
def FLOPS_GIGA : Int := FLOPS_MEGA * 1000
/-- SI constant of common/cpu.c:186. -/
def FLOPS_TERA : Int := FLOPS_GIGA * 1000

/-- Embedding of `get_str_peak_performance` (common/cpu.c:188-209):
−1 renders as the "Unknown" token; any other value as `%.2f` of the
quotient by the largest fitting SI unit, suffixed with ` TFLOP/s`,
` GFLOP/s` or ` MFLOP/s` and truncated by the `max_size = 17` snprintf
bound. -/
def get_str_peak_performance (flops : Int) : List Char :=
  if flops = -1 then STRING_UNKNOWN
  else
    (if FLOPS_TERA ≤ flops then
        fmtFixed2 ((flops : ℚ) / (FLOPS_TERA : ℚ)) ++ " TFLOP/s".toList
      else if FLOPS_GIGA ≤ flops then
        fmtFixed2 ((flops : ℚ) / (FLOPS_GIGA : ℚ)) ++ " GFLOP/s".toList
      else
        fmtFixed2 ((flops : ℚ) / (FLOPS_MEGA : ℚ)) ++ " MFLOP/s".toList).take 16

/-- SI constant of common/cpu.c:212. -/
def OPS_KILO : Int := 1000
/-- SI constant of common/cpu.c:213. -/
def OPS_MEGA : Int := OPS_KILO * 1000
/-- SI constant of common/cpu.c:214. -/
def OPS_GIGA : Int := OPS_MEGA * 1000
/-- SI constant of common/cpu.c:215. -/
def OPS_TERA : Int := OPS_GIGA * 1000

/-- Embedding of `get_str_ops` (common/cpu.c:217-243): −1 renders as the
"Unknown" token; values of at least 1000 as `%.2f` of the quotient by the
largest fitting SI unit with ` TOPS`/` GOPS`/` MOPS`/` KOPS` suffix, and
smaller ones via `%lld OPS`, truncated by the `max_size = 32` snprintf
bound. -/
def get_str_ops (ops : Int) : List Char :=
  if ops = -1 then STRING_UNKNOWN
  else
    (if OPS_TERA ≤ ops then
        fmtFixed2 ((ops : ℚ) / (OPS_TERA : ℚ)) ++ " TOPS".toList
      else if OPS_GIGA ≤ ops then
        fmtFixed2 ((ops : ℚ) / (OPS_GIGA : ℚ)) ++ " GOPS".toList
      else if OPS_MEGA ≤ ops then
        fmtFixed2 ((ops : ℚ) / (OPS_MEGA : ℚ)) ++ " MOPS".toList
      else if OPS_KILO ≤ ops then
        fmtFixed2 ((ops : ℚ) / (OPS_KILO : ℚ)) ++ " KOPS".toList
      else intToDigits ops ++ " OPS".toList).take 31

/-! ## Supporting lemmas -/

theorem validatePackageIds_iff (ids : List Int) (total : Nat) :
    validatePackageIds ids total = true ↔
      ∀ p ∈ ids, 0 ≤ p ∧ p < (total : Int) := by
  simp [validatePackageIds]

theorem fill_package_ids_some (raw : Option (List Int)) (total : Nat)
    (ids : List Int) (h : fill_package_ids_from_sys raw total = some ids) :
    raw = some ids ∧ ∀ p ∈ ids, 0 ≤ p ∧ p < (total : Int) := by
  match raw with
  | none => simp [fill_package_ids_from_sys] at h
  | some l =>
      unfold fill_package_ids_from_sys at h
      by_cases hv : validatePackageIds l total
      · simp only [hv, if_true, Option.some.injEq] at h
        subst h
        exact ⟨rfl, (validatePackageIds_iff _ total).mp hv⟩
      · simp [hv] at h

theorem foldl_histInc_apply (l : List Int) (h : Int → Nat) (v : Int) :
    (l.foldl histInc h) v = h v + l.count v := by
  induction l generalizing h with
  | nil => simp
  | cons a t ih =>
      rw [List.foldl_cons, ih, List.count_cons]
      unfold histInc
      by_cases hva : v = a
      · subst hva; simp; omega
      · simp [hva, Ne.symm hva]

theorem buildHist_eq_count (ids : List Int) (v : Int) :
    buildHist ids v = ids.count v := by
  unfold buildHist
  rw [foldl_histInc_apply]
  simp

theorem socketsFromHist_le (ids : List Int) (total : Nat) :
    socketsFromHist ids total ≤ total := by
  unfold socketsFromHist
  calc (List.range total).countP _ ≤ (List.range total).length :=
        List.countP_le_length _
    _ = total := List.length_range total

theorem socketsFromHist_eq_card (ids : List Int) (total : Nat)
    (hvalid : ∀ p ∈ ids, 0 ≤ p ∧ p < (total : Int)) :
    socketsFromHist ids total = ids.toFinset.card := by
  unfold socketsFromHist
  have hpred : (fun i : Nat => decide (buildHist ids (i : Int) ≠ 0)) =
      fun i : Nat => decide (((i : Nat) : Int) ∈ ids) := by
    funext i
    rw [decide_eq_decide, buildHist_eq_count]
    exact Nat.pos_iff_ne_zero.symm.trans List.count_pos_iff
  rw [hpred, List.countP_eq_length_filter]
  have hnodup : ((List.range total).filter
      (fun i : Nat => decide (((i : Nat) : Int) ∈ ids))).Nodup :=
    List.Nodup.filter _ (List.nodup_range total)
  rw [← List.toFinset_card_of_nodup hnodup, List.toFinset_filter]
  have himage : (((List.range total).toFinset.filter
        (fun i : Nat => decide (((i : Nat) : Int) ∈ ids))).image
        (fun i : Nat => (i : Int)))
      = ids.toFinset := by
    ext x
    simp only [Finset.mem_image, Finset.mem_filter, List.mem_toFinset,
      List.mem_range, decide_eq_true_eq]
    constructor
    · rintro ⟨i, ⟨_, hmem⟩, rfl⟩
      exact hmem
    · intro hx
      obtain ⟨h0, hlt⟩ := hvalid x hx
      refine ⟨x.toNat, ⟨by omega, ?_⟩, by omega⟩
      rwa [Int.toNat_of_nonneg h0]
  rw [← himage]
  exact (Finset.card_image_of_injective _
    (fun a b h => Int.natCast_inj.mp h)).symm

theorem socketsFromHist_pos (ids : List Int) (total : Nat)
    (hne : ids ≠ []) (hvalid : ∀ p ∈ ids, 0 ≤ p ∧ p < (total : Int)) :
    0 < socketsFromHist ids total := by
  unfold socketsFromHist
  rw [List.countP_pos_iff]
  obtain ⟨p, hp⟩ := List.exists_mem_of_ne_nil ids hne
  obtain ⟨h0, hlt⟩ := hvalid p hp
  refine ⟨p.toNat, ?_, ?_⟩
  · rw [List.mem_range]; omega
  · rw [decide_eq_true_eq, Int.toNat_of_nonneg h0, buildHist_eq_count]
    exact Nat.pos_iff_ne_zero.mp (List.count_pos_iff.mpr hp)

theorem addKey_length (s : List Int) (k : Int) :
    (addKey s k).length ≤ s.length + 1 := by
  unfold addKey
  split <;> simp

theorem foldl_addKey_length (l s : List Int) :
    (l.foldl addKey s).length ≤ s.length + l.length := by
  induction l generalizing s with
  | nil => simp
  | cons a t ih =>
      rw [List.foldl_cons]
      calc (t.foldl addKey (addKey s a)).length
          ≤ (addKey s a).length + t.length := ih (addKey s a)
        _ ≤ s.length + 1 + t.length := by
            have := addKey_length s a; omega
        _ = s.length + (a :: t).length := by simp; omega

theorem uniquePairCount_le (pkgs cores : List Int) :
    uniquePairCount pkgs cores ≤ min pkgs.length cores.length := by
  unfold uniquePairCount
  calc (((pkgs.zip cores).map fun pc => packKey pc.1 pc.2).foldl
          addKey []).length
      ≤ ([] : List Int).length +
          ((pkgs.zip cores).map fun pc => packKey pc.1 pc.2).length :=
        foldl_addKey_length _ _
    _ = (pkgs.zip cores).length := by simp
    _ = min pkgs.length cores.length := by
        rw [List.length_zip]

theorem coreIdsAfterFallback_length (total : Nat)
    (coreRead : Option (List Int))
    (h : ∀ l, coreRead = some l → l.length = total) :
    (coreIdsAfterFallback total coreRead).length = total := by
  unfold coreIdsAfterFallback
  match coreRead with
  | none => simp
  | some l => exact h l rfl

/-! ## Claim theorems -/

/-- C1: for every input set of per-processor (core_id, package_id) pairs of
size `N ≥ 1` for which id reading succeeds, both topology reconstructors
compute `sockets` equal to the number of distinct `package_id` values
actually occurring, with `sockets ≤ N`; and on the Scenario-B input
(N=8, core_id=[0,1,2,3,0,1,2,3], package_id=[0,0,0,0,1,1,1,1]) the result
is sockets=2, unique_pairs=8, physical_cores=4, logical_cores=4. -/
theorem claim1_sockets_count_distinct_packages
    (total : Nat) (coreRead : Option (List Int)) (ids : List Int)
    (stale : List Int) (ns : Int)
    (htot : 1 ≤ total) (hlen : ids.length = total)
    (hvalid : validatePackageIds ids total = true) :
    ((sparc.get_topology_info total coreRead (some ids)).sockets
        = ids.toFinset.card
      ∧ (parisc.get_topology_info total coreRead (some ids) stale ns).sockets
        = ids.toFinset.card
      ∧ ids.toFinset.card ≤ total)
    ∧ (sparc.get_topology_info 8 (some [0, 1, 2, 3, 0, 1, 2, 3])
          (some [0, 0, 0, 0, 1, 1, 1, 1])
        = ⟨8, 2, 4, 4, 1⟩
      ∧ parisc.get_topology_info 8 (some [0, 1, 2, 3, 0, 1, 2, 3])
          (some [0, 0, 0, 0, 1, 1, 1, 1]) [] 0
        = ⟨8, 2, 4, 4, 1⟩
      ∧ uniquePairCount [0, 0, 0, 0, 1, 1, 1, 1] [0, 1, 2, 3, 0, 1, 2, 3]
        = 8) := by
  have hv := (validatePackageIds_iff ids total).mp hvalid
  have hcard := socketsFromHist_eq_card ids total hv
  have hle := socketsFromHist_le ids total
  have hne : ids ≠ [] := by
    intro hnil; rw [hnil] at hlen; simp at hlen; omega
  have hpos := socketsFromHist_pos ids total hne hv
  refine ⟨⟨?_, ?_, ?_⟩, by decide, by decide, by decide⟩
  · unfold sparc.get_topology_info
    simp only [fill_package_ids_from_sys, hvalid, if_true]
    exact hcard
  · unfold parisc.get_topology_info
    simp only [fill_package_ids_from_sys, hvalid, if_true]
    have : ¬ socketsFromHist ids total = 0 := by omega
    simp only [this, if_false]
    exact hcard
  · omega

/-- Witness for C1 at Scenario A (N=4, core_id=[0,1,2,3],
package_id=[0,0,0,0]): the hypotheses hold and the sparc reconstructor
reports one socket. -/
theorem claim1_witness :
    (1 ≤ 4 ∧ ([0, 0, 0, 0] : List Int).length = 4
      ∧ validatePackageIds [0, 0, 0, 0] 4 = true)
    ∧ (sparc.get_topology_info 4 (some [0, 1, 2, 3])
        (some [0, 0, 0, 0])).sockets
      = ([0, 0, 0, 0] : List Int).toFinset.card :=
  ⟨⟨by decide, by decide, by decide⟩,
    (claim1_sockets_count_distinct_packages 4 (some [0, 1, 2, 3])
      [0, 0, 0, 0] [] 0 (by decide) (by decide) (by decide)).1.1⟩

theorem clampedProductBound (total up S0 : Nat) (htot : 1 ≤ total)
    (hup : up ≤ total) (hS0 : S0 ≤ total) :
    (let S := if S0 = 0 then 1 else S0
     let p0 := if 0 < up then up / S
       else (if 0 < total then total / S else 1)
     let p := if p0 = 0 then 1 else p0
     p * S) ≤ total := by
  simp only []
  set S := if S0 = 0 then 1 else S0 with hSdef
  have hS1 : 1 ≤ S := by rw [hSdef]; split <;> omega
  have hSle : S ≤ total := by rw [hSdef]; split <;> omega
  have hd1 : up / S * S ≤ total := le_trans (Nat.div_mul_le_self _ _) hup
  have hd2 : total / S * S ≤ total := Nat.div_mul_le_self _ _
  by_cases hu : 0 < up
  · simp only [hu, if_true]
    by_cases hq : up / S = 0
    · simp only [hq, if_true]
      omega
    · simp only [hq, if_false]
      exact hd1
  · have hT : 0 < total := htot
    simp only [hu, if_false, hT, if_true]
    have hq1 : 1 ≤ total / S := (Nat.one_le_div_iff (by omega)).mpr hSle
    have hq : ¬ total / S = 0 := by omega
    simp only [hq, if_false]
    exact hd2

/-- C5: after clamping, `physical_cores * sockets` never exceeds the count
of online logical processors, for every id assignment and every fallback
branch of the sparc and parisc reconstructors. -/
theorem claim5_core_product_bound
    (total : Nat) (coreRead pkgRaw : Option (List Int))
    (stale : List Int) (ns : Int)
    (htot : 1 ≤ total)
    (hcr : ∀ l, coreRead = some l → l.length = total)
    (hpr : ∀ l, pkgRaw = some l → l.length = total)
    (hstale : stale.length = total)
    (hns : numSocketsPackageCpusSpec total ns) :
    (sparc.get_topology_info total coreRead pkgRaw).physical_cores *
      (sparc.get_topology_info total coreRead pkgRaw).sockets ≤ total
    ∧ (parisc.get_topology_info total coreRead pkgRaw stale ns).physical_cores
      * (parisc.get_topology_info total coreRead pkgRaw stale ns).sockets
      ≤ total := by
  have hcore := coreIdsAfterFallback_length total coreRead hcr
  have hupAny : ∀ pkgs : List Int, pkgs.length = total →
      uniquePairCount pkgs (coreIdsAfterFallback total coreRead) ≤ total := by
    intro pkgs hlenp
    have h := uniquePairCount_le pkgs (coreIdsAfterFallback total coreRead)
    rw [hlenp, hcore] at h
    simpa using h
  have h0 : 0 < total := htot
  constructor
  · rcases hfill : fill_package_ids_from_sys pkgRaw total with _ | ids
    · have hup := hupAny ((List.range total).map (fun i : Nat => (i : Int)))
        (by simp)
      simp only [sparc.get_topology_info, hfill, h0, if_true]
      exact le_trans (Nat.div_mul_le_self _ _) hup
    · obtain ⟨hraw, -⟩ := fill_package_ids_some pkgRaw total ids hfill
      have hup := hupAny ids (hpr ids hraw)
      simp only [sparc.get_topology_info, hfill]
      by_cases hS : 0 < socketsFromHist ids total
      · simp only [hS, if_true]
        exact le_trans (Nat.div_mul_le_self _ _) hup
      · simp only [hS, if_false]
        simp
  · rcases hfill : fill_package_ids_from_sys pkgRaw total with _ | ids
    · have hup := hupAny stale hstale
      have hS0 : (if ns = UNKNOWN_DATA ∨ ns ≤ 0 then 1 else ns.toNat)
          ≤ total := by
        rcases hns with h | ⟨h1, h2⟩
        · simp [h]
          omega
        · split <;> omega
      simp only [parisc.get_topology_info]
      rw [hfill]
      exact clampedProductBound total _ _ htot hup hS0
    · obtain ⟨hraw, -⟩ := fill_package_ids_some pkgRaw total ids hfill
      have hup := hupAny ids (hpr ids hraw)
      simp only [parisc.get_topology_info]
      rw [hfill]
      exact clampedProductBound total _ _ htot hup (socketsFromHist_le ids total)

/-- Witness for C5 at total=2, core_id=[0,1], package_id=[0,0],
helper result 1. -/
theorem claim5_witness :
    (1 : Nat) ≤ 2
    ∧ (sparc.get_topology_info 2 (some [0, 1]) (some [0, 0])).physical_cores
        * (sparc.get_topology_info 2 (some [0, 1]) (some [0, 0])).sockets
      ≤ 2 :=
  ⟨by decide,
    (claim5_core_product_bound 2 (some [0, 1]) (some [0, 0]) [0, 0] 1
      (by decide)
      (fun l hl => by cases hl; rfl)
      (fun l hl => by cases hl; rfl)
      (by decide)
      (Or.inr ⟨by decide, by decide⟩)).1⟩

/-- Arithmetic core of parisc lines 121-127: with `1 ≤ total`,
`up ≤ total` and `S0 ≤ total`, the clamped SMT ratio is exactly
`logical / physical` and at least 1, with `physical ≤ logical`. -/
theorem clampedSmtEq (total up S0 : Nat) (htot : 1 ≤ total)
    (hup : up ≤ total) (hS0 : S0 ≤ total) :
    (let S := if S0 = 0 then 1 else S0
     let p0 := if 0 < up then up / S
       else (if 0 < total then total / S else 1)
     let p := if p0 = 0 then 1 else p0
     let l0 := if 0 < total then total / S else p
     let l := if l0 = 0 then p else l0
     let s0 := l / p
     let s := if s0 = 0 then 1 else s0
     s = l / p ∧ 1 ≤ s ∧ 1 ≤ p ∧ p ≤ l) := by
  simp only []
  set S := if S0 = 0 then 1 else S0 with hSdef
  have hS1 : 1 ≤ S := by rw [hSdef]; split <;> omega
  have hSle : S ≤ total := by rw [hSdef]; split <;> omega
  have hT : 0 < total := htot
  have hl1 : 1 ≤ total / S := (Nat.one_le_div_iff (by omega)).mpr hSle
  have hl0 : ¬ total / S = 0 := by omega
  simp only [hT, if_true, hl0, if_false]
  set P0 := if 0 < up then up / S else total / S with hP0def
  set P := if P0 = 0 then 1 else P0 with hPdef
  have hp1 : 1 ≤ P := by rw [hPdef]; split <;> omega
  have hP0le : P0 ≤ total / S := by
    rw [hP0def]
    split
    · exact Nat.div_le_div_right hup
    · exact Nat.le_refl _
  have hple : P ≤ total / S := by rw [hPdef]; split <;> omega
  have hs1 : 1 ≤ total / S / P := (Nat.one_le_div_iff hp1).mpr hple
  have hs0 : ¬ total / S / P = 0 := Nat.pos_iff_ne_zero.mp hs1
  simp only [hs0, if_false]
  exact ⟨trivial, hs1, hp1, hple⟩

/-- C6 counterexample: on two logical processors reporting a single shared
core of a single package, the sparc reconstructor yields
`logical_cores / physical_cores = 2` but `smt_supported = 1`, so
`smt_ratio` does not equal the integer division the claim specifies. -/
theorem claim6_counterexample :
    (sparc.get_topology_info 2 (some [0, 0]) (some [0, 0])).smt_supported = 1
    ∧ (sparc.get_topology_info 2 (some [0, 0]) (some [0, 0])).logical_cores
        / (sparc.get_topology_info 2 (some [0, 0]) (some [0, 0])).physical_cores
      = 2
    ∧ (1 : Nat) ≠ 2 := by decide

/-- C6 amended: the parisc reconstructor always satisfies
`smt_supported = logical_cores / physical_cores` with value at least 1; the
sparc reconstructor instead sets `smt_supported = 1` unconditionally. -/
theorem claim6_amended_smt_division
    (total : Nat) (coreRead pkgRaw : Option (List Int))
    (stale : List Int) (ns : Int)
    (htot : 1 ≤ total)
    (hcr : ∀ l, coreRead = some l → l.length = total)
    (hpr : ∀ l, pkgRaw = some l → l.length = total)
    (hstale : stale.length = total)
    (hns : numSocketsPackageCpusSpec total ns) :
    ((parisc.get_topology_info total coreRead pkgRaw stale ns).smt_supported
        = (parisc.get_topology_info total coreRead pkgRaw stale ns).logical_cores
          / (parisc.get_topology_info total coreRead pkgRaw stale ns).physical_cores
      ∧ 1 ≤ (parisc.get_topology_info total coreRead pkgRaw stale
          ns).smt_supported)
    ∧ ∀ (t : Nat) (cr pr : Option (List Int)),
        (sparc.get_topology_info t cr pr).smt_supported = 1 := by
  have hcore := coreIdsAfterFallback_length total coreRead hcr
  have hupAny : ∀ pkgs : List Int, pkgs.length = total →
      uniquePairCount pkgs (coreIdsAfterFallback total coreRead) ≤ total := by
    intro pkgs hlenp
    have h := uniquePairCount_le pkgs (coreIdsAfterFallback total coreRead)
    rw [hlenp, hcore] at h
    simpa using h
  constructor
  · rcases hfill : fill_package_ids_from_sys pkgRaw total with _ | ids
    · have hup := hupAny stale hstale
      have hS0 : (if ns = UNKNOWN_DATA ∨ ns ≤ 0 then 1 else ns.toNat)
          ≤ total := by
        rcases hns with h | ⟨h1, h2⟩
        · simp [h]
          omega
        · split <;> omega
      simp only [parisc.get_topology_info]
      rw [hfill]
      have h := clampedSmtEq total _ _ htot hup hS0
      exact ⟨h.1, h.2.1⟩
    · obtain ⟨hraw, -⟩ := fill_package_ids_some pkgRaw total ids hfill
      have hup := hupAny ids (hpr ids hraw)
      simp only [parisc.get_topology_info]
      rw [hfill]
      have h := clampedSmtEq total _ _ htot hup (socketsFromHist_le ids total)
      exact ⟨h.1, h.2.1⟩
  · intro t cr pr
    rcases hfill : fill_package_ids_from_sys pr t with _ | ids <;>
      simp [sparc.get_topology_info, hfill]

/-- Witness for C6 (amended) at total=2, core_id=[0,0], package_id=[0,0]:
the parisc backend reports `smt_supported = logical / physical`. -/
theorem claim6_witness :
    (1 : Nat) ≤ 2
    ∧ (parisc.get_topology_info 2 (some [0, 0]) (some [0, 0]) [0, 0]
        1).smt_supported
      = (parisc.get_topology_info 2 (some [0, 0]) (some [0, 0]) [0, 0]
          1).logical_cores
        / (parisc.get_topology_info 2 (some [0, 0]) (some [0, 0]) [0, 0]
            1).physical_cores :=
  ⟨by decide,
    (claim6_amended_smt_division 2 (some [0, 0]) (some [0, 0]) [0, 0] 1
      (by decide)
      (fun l hl => by cases hl; rfl)
      (fun l hl => by cases hl; rfl)
      (by decide)
      (Or.inr ⟨by decide, by decide⟩)).1.1⟩

/-- C7 counterexample: when package-id retrieval fails on two logical
processors, the parisc reconstructor (with an unavailable package_cpus
helper) reports 1 socket while the claimed fixed fallback is "N sockets";
the sparc reconstructor on the same input reports 2 sockets, so the two
call sites also disagree. -/
theorem claim7_counterexample :
    (parisc.get_topology_info 2 (some [0, 1]) none [5, 7]
      UNKNOWN_DATA).sockets = 1
    ∧ (sparc.get_topology_info 2 (some [0, 1]) none).sockets = 2
    ∧ (1 : Nat) ≠ 2 := by decide

/-- C7 amended: the core-id fallback is the same deterministic identity
assignment at both call sites, and the failures are never fatal (both
reconstructors are total functions); but the package-id fallback differs
per call site: sparc assigns each CPU its own socket (`sockets = N`) while
parisc derives the count from the package_cpus helper, defaulting to one
socket. -/
theorem claim7_amended_fallbacks
    (total : Nat) (pkgRaw : Option (List Int)) (stale : List Int) (ns : Int)
    (hfail : fill_package_ids_from_sys pkgRaw total = none) :
    (∀ pr : Option (List Int),
      sparc.get_topology_info total none pr
        = sparc.get_topology_info total
            (some ((List.range total).map (fun i : Nat => (i : Int)))) pr
      ∧ parisc.get_topology_info total none pr stale ns
        = parisc.get_topology_info total
            (some ((List.range total).map (fun i : Nat => (i : Int)))) pr
            stale ns)
    ∧ (sparc.get_topology_info total none pkgRaw).sockets = total
    ∧ (parisc.get_topology_info total none pkgRaw stale ns).sockets
      = (if ns = UNKNOWN_DATA ∨ ns ≤ 0 then 1 else ns.toNat) := by
  refine ⟨fun pr => ⟨rfl, rfl⟩, ?_, ?_⟩
  · simp only [sparc.get_topology_info]
    rw [hfail]
  · simp only [parisc.get_topology_info]
    rw [hfail]
    by_cases h : ns = UNKNOWN_DATA ∨ ns ≤ 0
    · simp [h]
    · have h1 : 0 < ns := by
        push_neg at h
        exact h.2
      have h0 : ¬ ns.toNat = 0 := by omega
      simp only [h, if_false, h0]

/-- Witness for C7 (amended): with no package-id data at all on two CPUs,
the sparc reconstructor reports two sockets. -/
theorem claim7_witness :
    fill_package_ids_from_sys none 2 = none
    ∧ (sparc.get_topology_info 2 none none).sockets = 2 :=
  ⟨rfl, (claim7_amended_fallbacks 2 none [] (-1) rfl).2.1⟩

theorem freqFromHz_band (hz : Nat) :
    alpha.freqFromHz hz = UNKNOWN_DATA
    ∨ (50 ≤ alpha.freqFromHz hz ∧ alpha.freqFromHz hz ≤ 10000) := by
  simp only [alpha.freqFromHz]
  split
  · left; rfl
  · split
    · left; rfl
    · rename_i hb
      right
      push_neg at hb
      omega

/-- C2 counterexample: the alpha parser accepts a 60 MHz cycle frequency
(60000000 Hz), returning 60, which is neither the UNKNOWN sentinel nor
inside the claimed [100, 10000] MHz band. -/
theorem claim2_counterexample :
    alpha.get_frequency_from_cpuinfo_alpha (some 60000000) none = 60
    ∧ ¬((60 : Int) = UNKNOWN_DATA)
    ∧ ¬(100 ≤ (60 : Int) ∧ (60 : Int) ≤ 10000) := by decide

/-- C2 amended: every frequency parser returns the UNKNOWN sentinel or an
in-band value and never clamps, but the band is per-architecture: the
alpha parser accepts [50, 10000] MHz while the sparc and parisc parsers
accept [100, 10000] MHz. -/
theorem claim2_amended_frequency_bands
    (a1 a2 hz : Option Nat) (q : Option ℚ) :
    (alpha.get_frequency_from_cpuinfo_alpha a1 a2 = UNKNOWN_DATA
      ∨ (50 ≤ alpha.get_frequency_from_cpuinfo_alpha a1 a2
        ∧ alpha.get_frequency_from_cpuinfo_alpha a1 a2 ≤ 10000))
    ∧ (sparc.get_frequency_from_cpuinfo hz = UNKNOWN_DATA
      ∨ (100 ≤ sparc.get_frequency_from_cpuinfo hz
        ∧ sparc.get_frequency_from_cpuinfo hz ≤ 10000))
    ∧ (parisc.get_frequency_from_cpuinfo q = UNKNOWN_DATA
      ∨ (100 ≤ parisc.get_frequency_from_cpuinfo q
        ∧ parisc.get_frequency_from_cpuinfo q ≤ 10000)) := by
  refine ⟨?_, ?_, ?_⟩
  · unfold alpha.get_frequency_from_cpuinfo_alpha
    match a1 with
    | some v => exact freqFromHz_band v
    | none =>
        match a2 with
        | none => left; rfl
        | some v => exact freqFromHz_band v
  · match hz with
    | none => left; rfl
    | some v =>
        simp only [sparc.get_frequency_from_cpuinfo]
        by_cases h0 : v = 0
        · rw [if_pos h0]; left; rfl
        · rw [if_neg h0]
          by_cases hb : ((v / 1000000 : Nat) : Int) > 10000
              ∨ ((v / 1000000 : Nat) : Int) < 100
          · rw [if_pos hb]; left; rfl
          · rw [if_neg hb]
            push_neg at hb
            right
            omega
  · match q with
    | none => left; rfl
    | some v =>
        simp only [parisc.get_frequency_from_cpuinfo]
        by_cases h0 : v ≤ 0
        · rw [if_pos h0]; left; rfl
        · rw [if_neg h0]
          by_cases hb : (⌊v + 1 / 2⌋ : Int) > 10000 ∨ (⌊v + 1 / 2⌋ : Int) < 100
          · rw [if_pos hb]; left; rfl
          · rw [if_neg hb]
            push_neg at hb
            right
            omega

/-- C3 counterexample: the alpha cache builder marks the L1-instruction
level as existing while its parsed size is 0, violating
"exists iff size strictly positive". -/
theorem claim3_counterexample :
    (alpha.get_cache_info 0).L1i.lexists = true
    ∧ ¬(0 < (alpha.get_cache_info 0).L1i.size) := by decide

/-- C3 amended: the sparc and parisc cache builders mark every level as
existing exactly when its parsed size is strictly positive; the alpha
builder instead unconditionally marks L1i, L1d and L2 as existing with
size 0 and never marks L3. -/
theorem claim3_amended_cache_levels
    (l1i l1d l2 l3 online l3s : Int) (nc : Nat → Nat) :
    (((sparc.get_cache_info l1i l1d l2 l3 online).L1i.lexists = true
        ↔ 0 < l1i)
      ∧ ((sparc.get_cache_info l1i l1d l2 l3 online).L1d.lexists = true
        ↔ 0 < l1d)
      ∧ ((sparc.get_cache_info l1i l1d l2 l3 online).L2.lexists = true
        ↔ 0 < l2)
      ∧ ((sparc.get_cache_info l1i l1d l2 l3 online).L3.lexists = true
        ↔ 0 < l3))
    ∧ (((parisc.get_cache_info l1i l1d l2 l3 nc).L1i.lexists = true
        ↔ 0 < l1i)
      ∧ ((parisc.get_cache_info l1i l1d l2 l3 nc).L1d.lexists = true
        ↔ 0 < l1d)
      ∧ ((parisc.get_cache_info l1i l1d l2 l3 nc).L2.lexists = true
        ↔ 0 < l2)
      ∧ ((parisc.get_cache_info l1i l1d l2 l3 nc).L3.lexists = true
        ↔ 0 < l3))
    ∧ ((alpha.get_cache_info l3s).L1i.lexists = true
      ∧ (alpha.get_cache_info l3s).L1i.size = 0
      ∧ (alpha.get_cache_info l3s).L1d.lexists = true
      ∧ (alpha.get_cache_info l3s).L1d.size = 0
      ∧ (alpha.get_cache_info l3s).L2.lexists = true
      ∧ (alpha.get_cache_info l3s).L2.size = 0
      ∧ (alpha.get_cache_info l3s).L3.lexists = false) := by
  refine ⟨⟨?_, ?_, ?_, ?_⟩, ⟨?_, ?_, ?_, ?_⟩,
    rfl, rfl, rfl, rfl, rfl, rfl, rfl⟩ <;>
  · simp only [sparc.get_cache_info, parisc.get_cache_info]
    split_ifs <;> simp_all

theorem wrap32_eq_self (x : Int) (h0 : 0 ≤ x) (h1 : x < 2 ^ 31) :
    wrap32 x = x := by
  unfold wrap32
  omega

theorem wrap64_eq_self (x : Int) (h0 : 0 ≤ x) (h1 : x < 2 ^ 63) :
    wrap64 x = x := by
  unfold wrap64
  omega

theorem parisc_fpc_one_or_two (name : Option (List Char)) :
    parisc.parisc_flops_per_cycle name = 1
    ∨ parisc.parisc_flops_per_cycle name = 2 := by
  match name with
  | none => left; rfl
  | some n =>
      simp only [parisc.parisc_flops_per_cycle]
      split_ifs <;> simp

/-- C4: with runtime measurement disabled or unsuccessful and no 32/64-bit
overflow, the static peak estimate of every backend is exactly
`physical_cores_per_socket * sockets * (freq MHz * 10^6) * flops_per_cycle`
(`flops_per_cycle` is 1 except on parisc PA-8xxx models where it is 2),
and is −1 whenever the frequency is the UNKNOWN sentinel. -/
theorem claim4_static_peak_estimate
    (name : Option (List Char)) (physical sockets : Nat)
    (freq measured : Int)
    (hm : measured ≤ 0)
    (hf0 : 0 ≤ freq ∨ freq = UNKNOWN_DATA)
    (hps : (physical : Int) * (sockets : Int) < 2 ^ 31)
    (hf63 : freq * 1000000 < 2 ^ 63)
    (hprod : (physical : Int) * (sockets : Int) * (freq * 1000000) * 2
      < 2 ^ 63) :
    (freq = UNKNOWN_DATA →
      alpha.get_peak_performance_estimate physical sockets freq = -1
      ∧ parisc.get_peak_performance name physical sockets freq = -1
      ∧ sparc.get_peak_performance measured physical sockets freq = -1)
    ∧ (freq ≠ UNKNOWN_DATA →
      alpha.get_peak_performance_estimate physical sockets freq
        = (physical : Int) * (sockets : Int) * (freq * 1000000)
      ∧ parisc.get_peak_performance name physical sockets freq
        = (physical : Int) * (sockets : Int) * (freq * 1000000)
          * parisc.parisc_flops_per_cycle name
      ∧ sparc.get_peak_performance measured physical sockets freq
        = (physical : Int) * (sockets : Int) * (freq * 1000000))
    ∧ parisc.parisc_flops_per_cycle (some "PA-8900".toList) = 2
    ∧ parisc.parisc_flops_per_cycle none = 1 := by
  have hmn : ¬ 0 < measured := by omega
  refine ⟨?_, ?_, by decide, rfl⟩
  · intro h
    refine ⟨?_, ?_, ?_⟩
    · simp [alpha.get_peak_performance_estimate, h]
    · simp [parisc.get_peak_performance, h]
    · simp [sparc.get_peak_performance, hmn, h]
  · intro h
    have hf : 0 ≤ freq := hf0.resolve_right h
    have hA0 : 0 ≤ (physical : Int) * (sockets : Int) := by positivity
    have hF0 : 0 ≤ freq * 1000000 := by positivity
    have hAF0 : 0 ≤ (physical : Int) * (sockets : Int) * (freq * 1000000) :=
      mul_nonneg hA0 hF0
    have hAF : (physical : Int) * (sockets : Int) * (freq * 1000000)
        < 2 ^ 63 := by
      have h2 : (physical : Int) * (sockets : Int) * (freq * 1000000)
          ≤ (physical : Int) * (sockets : Int) * (freq * 1000000) * 2 :=
        le_mul_of_one_le_right hAF0 one_le_two
      omega
    have hw32 := wrap32_eq_self _ hA0 hps
    have hwF := wrap64_eq_self _ hF0 hf63
    have hwAF := wrap64_eq_self _ hAF0 hAF
    refine ⟨?_, ?_, ?_⟩
    · simp only [alpha.get_peak_performance_estimate, h, if_false]
      rw [hw32, hwF, hwAF, mul_one, hwAF]
    · simp only [parisc.get_peak_performance, h, if_false]
      rw [hw32, hwF, hwAF]
      rcases parisc_fpc_one_or_two name with hc | hc
      · rw [hc, mul_one, hwAF]
      · rw [hc]
        exact wrap64_eq_self _ (mul_nonneg hAF0 (by norm_num)) (by omega)
    · simp only [sparc.get_peak_performance, hmn, if_false, h]
      rw [hw32, hwF, hwAF]

/-- Witness for C4: a 4-core dual-socket PA-8900 at 1000 MHz yields the
exact static product with 2 FLOPs per cycle. -/
theorem claim4_witness :
    (1000 : Int) ≠ UNKNOWN_DATA
    ∧ parisc.get_peak_performance (some "PA-8900".toList) 4 2 1000
      = ((4 : Nat) : Int) * ((2 : Nat) : Int) * (1000 * 1000000)
        * parisc.parisc_flops_per_cycle (some "PA-8900".toList) :=
  ⟨by decide,
    ((claim4_static_peak_estimate (some "PA-8900".toList) 4 2 1000 (-1)
        (by decide) (Or.inl (by decide)) (by decide) (by decide)
        (by decide)).2.1 (by decide)).2.1⟩

/-- C8 counterexample: the sparc backend's default measurement duration is
0.6 s, not the claimed 2 s; and a requested duration of exactly 30 s is
not applied (the code's interval is open at 30), leaving the default 2 s
in force on parisc. -/
theorem claim8_counterexample :
    sparc.measureConfig true false none = some 0.6
    ∧ (0.6 : ℚ) ≠ 2
    ∧ parisc.measureConfig true true (some 30) = some 2
    ∧ (30 : ℚ) ≠ 2 := by
  refine ⟨rfl, by norm_num, ?_, by norm_num⟩
  simp only [parisc.measureConfig, targetSeconds]
  norm_num

/-- C8 amended: runtime measurement runs only on explicit opt-in
(the accuracy flag or the environment toggle); the default target
duration is 2 s on alpha and parisc but 0.6 s on sparc; and a
user-supplied duration replaces the default exactly when the environment
toggle is set and the value lies in the open interval (0.05, 30)
(both endpoints excluded). -/
theorem claim8_amended_measurement_gating
    (a e : Bool) (d : Option ℚ) (v : ℚ) :
    (a = false → e = false →
      sparc.measureConfig a e d = none
      ∧ alpha.measureConfig a e d = none
      ∧ parisc.measureConfig a e d = none)
    ∧ ((a = true ∨ e = true) →
      sparc.measureConfig a e d = some (targetSeconds 0.6 e d)
      ∧ alpha.measureConfig a e d = some (targetSeconds 2 e d)
      ∧ parisc.measureConfig a e d = some (targetSeconds 2 e d))
    ∧ (0.05 < v → v < 30 →
      targetSeconds 0.6 true (some v) = v
      ∧ targetSeconds 2 true (some v) = v)
    ∧ (¬(0.05 < v ∧ v < 30) →
      targetSeconds 0.6 true (some v) = 0.6
      ∧ targetSeconds 2 true (some v) = 2)
    ∧ (targetSeconds 0.6 false (some v) = 0.6
      ∧ targetSeconds 2 false (some v) = 2) := by
  refine ⟨?_, ?_, ?_, ?_, ?_, ?_⟩
  · rintro rfl rfl
    refine ⟨rfl, rfl, rfl⟩
  · intro h
    have he : (a ∨ e) = true := by
      rcases h with h | h <;> simp [h]
    constructor
    · simp [sparc.measureConfig, he]
    constructor
    · simp [alpha.measureConfig, he]
    · simp [parisc.measureConfig, he]
  · intro h1 h2
    constructor <;> simp [targetSeconds, h1, h2]
  · intro h
    constructor <;> simp [targetSeconds, h]
  · simp [targetSeconds]
  · simp [targetSeconds]

/-- Witness for C8 (amended): with the accuracy flag set and a 1-second
override present and in range, sparc measures for 1 s and parisc for 1 s. -/
theorem claim8_witness :
    ((true : Bool) = true ∨ (true : Bool) = true)
    ∧ sparc.measureConfig true true (some 1)
      = some (targetSeconds 0.6 true (some 1))
    ∧ (0.05 < (1 : ℚ) ∧ (1 : ℚ) < 30)
    ∧ targetSeconds 0.6 true (some 1) = 1 :=
  ⟨Or.inl rfl,
    ((claim8_amended_measurement_gating true true (some 1) 1).2.1
      (Or.inl rfl)).1,
    ⟨by norm_num, by norm_num⟩,
    ((claim8_amended_measurement_gating true true (some 1) 1).2.2.1
      (by norm_num) (by norm_num)).1⟩

/-- C10: whenever `fill_package_ids_from_sys` reports success, every
package id is inside `[0, total_cores)`, so every histogram access
`package_ids_count[package_ids[i]]` of the reconstructors indexes within
the `total_cores`-element array. -/
theorem claim10_histogram_index_in_bounds
    (raw : Option (List Int)) (total : Nat) (ids : List Int)
    (hok : fill_package_ids_from_sys raw total = some ids) :
    ∀ p ∈ ids, 0 ≤ p ∧ p.toNat < total := by
  obtain ⟨-, hv⟩ := fill_package_ids_some raw total ids hok
  intro p hp
  obtain ⟨h0, hlt⟩ := hv p hp
  exact ⟨h0, by omega⟩

/-- Witness for C10: a successful validated read with ids `[1, 0]` over
two CPUs keeps the histogram index of id 1 in bounds. -/
theorem claim10_witness :
    fill_package_ids_from_sys (some [1, 0]) 2 = some [1, 0]
    ∧ (0 ≤ (1 : Int) ∧ (1 : Int).toNat < 2) :=
  ⟨by decide,
    claim10_histogram_index_in_bounds (some [1, 0]) 2 [1, 0] (by decide)
      1 (by decide)⟩

theorem natDigitChar_ne_U (d : Nat) (h : d < 10) : natDigitChar d ≠ 'U' := by
  interval_cases d <;> decide

theorem natToDigits_head (n : Nat) :
    ∃ d, d < 10 ∧ (natToDigits n).head? = some (natDigitChar d) := by
  induction n using Nat.strong_induction_on with
  | _ n ih =>
    rw [natToDigits]
    split
    · rename_i h
      exact ⟨n, h, rfl⟩
    · rename_i h
      obtain ⟨d, hd, hh⟩ :=
        ih (n / 10) (Nat.div_lt_self (by omega) (by omega))
      refine ⟨d, hd, ?_⟩
      cases hnd : natToDigits (n / 10) with
      | nil => rw [hnd] at hh; simp at hh
      | cons c t =>
          rw [hnd] at hh
          simp only [List.head?_cons, Option.some.injEq] at hh
          simp [hnd, hh]

theorem head?_take_pos (l : List Char) (n : Nat) (hn : 0 < n) :
    (l.take n).head? = l.head? := by
  cases l with
  | nil => simp
  | cons a t =>
      cases n with
      | zero => omega
      | succ m => simp

theorem safeHead_ne (cs : List Char) (c : Char) (hc : cs.head? = some c)
    (hU : c ≠ 'U') : cs ≠ [] ∧ cs ≠ STRING_UNKNOWN := by
  have hSU : STRING_UNKNOWN.head? = some 'U' := rfl
  constructor
  · intro h
    rw [h] at hc
    simp at hc
  · intro h
    rw [h, hSU] at hc
    exact hU (Option.some.inj hc).symm

theorem head?_append_left (A B : List Char) (c : Char)
    (h : A.head? = some c) : (A ++ B).head? = some c := by
  cases A with
  | nil => simp at h
  | cons a t =>
      simp only [List.head?_cons, Option.some.injEq] at h
      simp [h]

theorem digits_append_take_safe (k : Nat) (B : List Char) (n : Nat)
    (hn : 0 < n) :
    ((natToDigits k ++ B).take n) ≠ []
    ∧ ((natToDigits k ++ B).take n) ≠ STRING_UNKNOWN := by
  obtain ⟨d, hd, hh⟩ := natToDigits_head k
  refine safeHead_ne _ (natDigitChar d) ?_ (natDigitChar_ne_U d hd)
  rw [head?_take_pos _ n hn]
  exact head?_append_left _ _ _ hh

theorem tilde_take_safe (L : List Char) (n : Nat) (hn : 0 < n) :
    (('~' :: L).take n) ≠ [] ∧ (('~' :: L).take n) ≠ STRING_UNKNOWN := by
  refine safeHead_ne _ '~' ?_ (by decide)
  rw [head?_take_pos _ n hn]
  rfl

/-- C9: for the UNKNOWN sentinel −1, the string accessors `get_str_freq`,
`get_str_peak_performance` and `get_str_ops` return exactly the "Unknown"
token (itself non-empty); for valid non-negative values they return a
non-empty rendered string different from the "Unknown" token. -/
theorem claim9_unknown_token_rendering (m : Bool) (x : Int) :
    STRING_UNKNOWN ≠ []
    ∧ (x = -1 →
      get_str_freq m x = STRING_UNKNOWN
      ∧ get_str_peak_performance x = STRING_UNKNOWN
      ∧ get_str_ops x = STRING_UNKNOWN)
    ∧ (0 ≤ x →
      (get_str_freq m x ≠ [] ∧ get_str_freq m x ≠ STRING_UNKNOWN)
      ∧ (get_str_peak_performance x ≠ []
        ∧ get_str_peak_performance x ≠ STRING_UNKNOWN)
      ∧ (get_str_ops x ≠ [] ∧ get_str_ops x ≠ STRING_UNKNOWN)) := by
  refine ⟨by decide, ?_, ?_⟩
  · rintro rfl
    refine ⟨?_, rfl, rfl⟩
    simp [get_str_freq, UNKNOWN_DATA]
  · intro hx
    have hnu : ¬(x = UNKNOWN_DATA ∨ x < 0) := by
      simp only [UNKNOWN_DATA]
      omega
    have hne1 : x ≠ -1 := by omega
    refine ⟨?_, ?_, ?_⟩
    · simp only [get_str_freq, hnu, if_false]
      by_cases h1000 : 1000 ≤ x
      · simp only [h1000, if_true]
        cases m
        · simp only [Bool.false_eq_true, if_false, List.nil_append,
            fmtFixed3, List.append_assoc]
          exact digits_append_take_safe _ _ 10 (by norm_num)
        · simp only [if_true, List.singleton_append]
          exact tilde_take_safe _ 10 (by norm_num)
      · simp only [h1000, if_false]
        cases m
        · simp only [Bool.false_eq_true, if_false, List.nil_append]
          exact digits_append_take_safe _ _ 10 (by norm_num)
        · simp only [if_true, List.singleton_append]
          exact tilde_take_safe _ 10 (by norm_num)
    · simp only [get_str_peak_performance, hne1, if_false]
      have hq : ∀ c : Int, 0 < c → ¬((x : ℚ) / (c : ℚ) < 0) := by
        intro c hc
        push_neg
        apply div_nonneg
        · exact_mod_cast hx
        · exact_mod_cast hc.le
      split_ifs with hT hG
      · simp only [fmtFixed2, hq FLOPS_TERA (by norm_num [FLOPS_TERA,
          FLOPS_GIGA, FLOPS_MEGA]), if_false, fmtFixed2Nonneg,
          List.append_assoc]
        exact digits_append_take_safe _ _ 16 (by norm_num)
      · simp only [fmtFixed2, hq FLOPS_GIGA (by norm_num [FLOPS_GIGA,
          FLOPS_MEGA]), if_false, fmtFixed2Nonneg, List.append_assoc]
        exact digits_append_take_safe _ _ 16 (by norm_num)
      · simp only [fmtFixed2, hq FLOPS_MEGA (by norm_num [FLOPS_MEGA]),
          if_false, fmtFixed2Nonneg, List.append_assoc]
        exact digits_append_take_safe _ _ 16 (by norm_num)
    · simp only [get_str_ops, hne1, if_false]
      have hq : ∀ c : Int, 0 < c → ¬((x : ℚ) / (c : ℚ) < 0) := by
        intro c hc
        push_neg
        apply div_nonneg
        · exact_mod_cast hx
        · exact_mod_cast hc.le
      split_ifs with hT hG hM hK
      · simp only [fmtFixed2, hq OPS_TERA (by norm_num [OPS_TERA, OPS_GIGA,
          OPS_MEGA, OPS_KILO]), if_false, fmtFixed2Nonneg,
          List.append_assoc]
        exact digits_append_take_safe _ _ 31 (by norm_num)
      · simp only [fmtFixed2, hq OPS_GIGA (by norm_num [OPS_GIGA, OPS_MEGA,
          OPS_KILO]), if_false, fmtFixed2Nonneg, List.append_assoc]
        exact digits_append_take_safe _ _ 31 (by norm_num)
      · simp only [fmtFixed2, hq OPS_MEGA (by norm_num [OPS_MEGA,
          OPS_KILO]), if_false, fmtFixed2Nonneg, List.append_assoc]
        exact digits_append_take_safe _ _ 31 (by norm_num)
      · simp only [fmtFixed2, hq OPS_KILO (by norm_num [OPS_KILO]),
          if_false, fmtFixed2Nonneg, List.append_assoc]
        exact digits_append_take_safe _ _ 31 (by norm_num)
      · simp only [intToDigits, not_lt.mpr hx, if_false]
        exact digits_append_take_safe _ _ 31 (by norm_num)

/-- Witness for C9 at the sentinel −1 and at a valid 616 MHz frequency. -/
theorem claim9_witness :
    ((-1 : Int) = -1 ∧ get_str_freq false (-1) = STRING_UNKNOWN)
    ∧ (0 ≤ (616 : Int) ∧ get_str_freq false 616 ≠ STRING_UNKNOWN) :=
  ⟨⟨rfl, ((claim9_unknown_token_rendering false (-1)).2.1 rfl).1⟩,
    ⟨by decide,
      (((claim9_unknown_token_rendering false 616).2.2 (by decide)).1).2⟩⟩

end Cpufetch
